import Mathlib

/-!
Shallow embedding of the resource-lifecycle core of the
`RS-MF-Migration-Support-Tools` repository
(`migration/mongosync_insights/file_decompressor.py` and
`migration/mongosync_insights/app_config.py`), together with proofs about
the frozen specification claims.

Bytes are modelled as `Nat` (the newline byte is `10`), Python `bytes`
values as `List Nat`, and Python `str` as `List Char`.  Each operation of
the source is translated into an executable Lean function keeping the
source's name where Lean allows it.
-/

namespace MigrationTools

/-- The newline byte `b'\n'`. -/
def NL : Nat := 10

/-- Helper for `drainLines`: prepend a non-terminator byte to the first
pending line (or to the remainder when no complete line follows). -/
def consLine (b : Nat) : List (List Nat) × List Nat → List (List Nat) × List Nat
  | ([], rest) => ([], b :: rest)
  | (l :: ls, rest) => ((b :: l) :: ls, rest)

/-- One pass of the `while b'\n' in buffer:` loop of `decompress_bzip2`
(file_decompressor.py, lines 53-55): splits off every complete line
(up to and including the terminator byte `10`) from the front of the
buffer, returning the yielded lines and the non-terminated remainder. -/
def drainLines : List Nat → List (List Nat) × List Nat
  | [] => ([], [])
  | b :: bs =>
    if b = NL then ([NL] :: (drainLines bs).1, (drainLines bs).2)
    else consLine b (drainLines bs)

@[simp] theorem consLine_nil (b : Nat) (r : List Nat) :
    consLine b ([], r) = ([], b :: r) := rfl

@[simp] theorem consLine_cons (b : Nat) (l : List Nat) (ls : List (List Nat))
    (r : List Nat) : consLine b (l :: ls, r) = ((b :: l) :: ls, r) := rfl

@[simp] theorem drainLines_nil : drainLines [] = ([], []) := rfl

theorem drainLines_cons (b : Nat) (bs : List Nat) :
    drainLines (b :: bs) =
      if b = NL then ([NL] :: (drainLines bs).1, (drainLines bs).2)
      else consLine b (drainLines bs) := rfl

/-- Python's line iteration over a byte stream (`for line in f`): every
complete line including its terminator, plus the final non-terminated
remainder when it is nonempty.  This is the behaviour of the library
iterators used by `decompress_gzip`, `decompress_zip` and
`decompress_tar` on a decompressed payload. -/
def pyLines (s : List Nat) : List (List Nat) :=
  if (drainLines s).2 = [] then (drainLines s).1
  else (drainLines s).1 ++ [(drainLines s).2]

/-- The chunk loop of `decompress_bzip2` (file_decompressor.py, lines
44-61): `buffer` accumulates decompressed output; after each chunk all
complete lines are split off and yielded; when the source is exhausted a
nonempty remainder is flushed as a final line (`if buffer: yield buffer`). -/
def bz2Loop : List Nat → List (List Nat) → List (List Nat)
  | buffer, [] => if buffer = [] then [] else [buffer]
  | buffer, c :: cs =>
    (drainLines (buffer ++ c)).1 ++ bz2Loop (drainLines (buffer ++ c)).2 cs

/-- `decompress_bzip2` (file_decompressor.py, lines 32-61), modelled on the
sequence of decompressed outputs produced by the incremental
`BZ2Decompressor` for the successive 8 KiB reads: the loop starts with an
empty buffer and processes the chunks in order.  The chunking of the
plaintext is left arbitrary (the 8 KiB reads of *compressed* bytes induce
an arbitrary chunking of the decompressed plaintext). -/
def decompress_bzip2 (chunks : List (List Nat)) : List (List Nat) :=
  bz2Loop [] chunks

/-- `decompress_gzip` (file_decompressor.py, lines 16-29): the gzip path
delegates line iteration to `gzip.GzipFile`, whose `for line in gz` yields
the Python lines of the decompressed plaintext. -/
def decompress_gzip (plaintext : List Nat) : List (List Nat) :=
  pyLines plaintext

theorem drainLines_flatten_append : ∀ s : List Nat,
    (drainLines s).1.flatten ++ (drainLines s).2 = s := by
  intro s
  induction s with
  | nil => rfl
  | cons b bs ih =>
    rw [drainLines_cons]
    by_cases hb : b = NL
    · simpa [hb] using ih
    · rw [if_neg hb]
      rcases hp : drainLines bs with ⟨ls, rest⟩
      rw [hp] at ih
      cases ls with
      | nil => simpa using ih
      | cons l ls' => simpa using ih

theorem nl_not_mem_drainLines_rest : ∀ s : List Nat, NL ∉ (drainLines s).2 := by
  intro s
  induction s with
  | nil => simp
  | cons b bs ih =>
    rw [drainLines_cons]
    by_cases hb : b = NL
    · simpa [hb] using ih
    · rw [if_neg hb]
      rcases hp : drainLines bs with ⟨ls, rest⟩
      rw [hp] at ih
      cases ls with
      | nil =>
        simp only [consLine_nil, List.mem_cons, not_or]
        exact ⟨fun h => hb h.symm, ih⟩
      | cons l ls' => simpa using ih

theorem drainLines_no_nl : ∀ s : List Nat, NL ∉ s → drainLines s = ([], s) := by
  intro s hs
  induction s with
  | nil => rfl
  | cons b bs ih =>
    have hb : b ≠ NL := fun h => hs (h ▸ List.mem_cons_self b bs)
    have hbs : NL ∉ bs := fun h => hs (List.mem_cons_of_mem b h)
    rw [drainLines_cons, if_neg hb, ih hbs, consLine_nil]

theorem drainLines_append (a b : List Nat) :
    drainLines (a ++ b) =
      ((drainLines a).1 ++ (drainLines ((drainLines a).2 ++ b)).1,
        (drainLines ((drainLines a).2 ++ b)).2) := by
  induction a with
  | nil => simp
  | cons x xs ih =>
    rw [List.cons_append, drainLines_cons, drainLines_cons]
    by_cases hx : x = NL
    · rw [if_pos hx, if_pos hx, ih]
      simp
    · rw [if_neg hx, if_neg hx]
      rcases hxs : drainLines xs with ⟨ls, rest⟩
      rw [hxs] at ih
      cases ls with
      | nil =>
        simp only [consLine_nil]
        rw [ih]
        simp only [List.nil_append]
        rw [List.cons_append, drainLines_cons, if_neg hx]
      | cons l ls' =>
        simp only [consLine_cons]
        rw [ih]
        simp

theorem pyLines_append (a b : List Nat) :
    pyLines (a ++ b) = (drainLines a).1 ++ pyLines ((drainLines a).2 ++ b) := by
  simp only [pyLines, drainLines_append a b]
  by_cases h : (drainLines ((drainLines a).2 ++ b)).2 = []
  · simp [h]
  · simp [h]

theorem pyLines_flatten (s : List Nat) : (pyLines s).flatten = s := by
  simp only [pyLines]
  by_cases h : (drainLines s).2 = []
  · rw [if_pos h]
    have := drainLines_flatten_append s
    rw [h, List.append_nil] at this
    exact this
  · rw [if_neg h]
    simp only [List.flatten_append, List.flatten_cons, List.flatten_nil,
      List.append_nil]
    exact drainLines_flatten_append s

theorem bz2Loop_eq_pyLines : ∀ (chunks : List (List Nat)) (buffer : List Nat),
    NL ∉ buffer → bz2Loop buffer chunks = pyLines (buffer ++ chunks.flatten) := by
  intro chunks
  induction chunks with
  | nil =>
    intro buffer hb
    simp only [bz2Loop, List.flatten_nil, List.append_nil, pyLines,
      drainLines_no_nl buffer hb]
    by_cases h : buffer = [] <;> simp [h]
  | cons c cs ih =>
    intro buffer hb
    simp only [bz2Loop, List.flatten_cons]
    rw [ih (drainLines (buffer ++ c)).2 (nl_not_mem_drainLines_rest (buffer ++ c))]
    rw [show buffer ++ (c ++ cs.flatten) = (buffer ++ c) ++ cs.flatten by simp,
      pyLines_append (buffer ++ c) cs.flatten]

theorem decompress_bzip2_eq_pyLines (chunks : List (List Nat)) :
    decompress_bzip2 chunks = pyLines chunks.flatten := by
  rw [decompress_bzip2, bz2Loop_eq_pyLines chunks [] (by simp), List.nil_append]

/-- An entry of a zip archive as exposed by `zipfile.ZipFile`: a member
name and the decompressed content of the member. -/
structure ZipEntry where
  name : List Char
  content : List Nat
deriving DecidableEq

/-- `decompress_zip` (file_decompressor.py, lines 64-87): enumerate the
entries in archive order, skip names ending in `/` (directories), and
yield the Python lines of each remaining member's content. -/
def decompress_zip : List ZipEntry → List (List Nat)
  | [] => []
  | e :: es =>
    (if List.isSuffixOf "/".data e.name then [] else pyLines e.content)
      ++ decompress_zip es

/-- A member of a tar archive as exposed by `tarfile`: a name, the
`isfile()` flag (regular-file test) and the member's content. -/
structure TarMember where
  name : List Char
  isfile : Bool
  content : List Nat
deriving DecidableEq

/-- `decompress_tar` (file_decompressor.py, lines 90-118): enumerate the
members in archive order, skip members for which `isfile()` is false
(directories, links), and yield the Python lines of each regular file's
content. -/
def decompress_tar : List TarMember → List (List Nat)
  | [] => []
  | m :: ms =>
    (if m.isfile then pyLines m.content else []) ++ decompress_tar ms

/-- C1: For every supported CompressionKind, decoding a freshly-seeked
source containing a compressed encoding of a plaintext yields exactly the
original lines in order (the Python lines of the plaintext), and when the
plaintext's last line has no trailing terminator that final partial line
is still yielded rather than dropped: `pyLines` flattens back to the full
plaintext, so no trailing bytes are lost, and the bzip2 chunk/buffer/split
algorithm produces exactly `pyLines` of the concatenated decompressor
output for every chunking, flushing the non-terminated remainder as a
final line. -/
theorem C1_decode_round_trip (s : List Nat) (chunks : List (List Nat))
    (nm nm2 : List Char) (hnm : List.isSuffixOf "/".data nm = false) :
    decompress_gzip s = pyLines s
    ∧ decompress_bzip2 chunks = pyLines chunks.flatten
    ∧ decompress_zip [⟨nm, s⟩] = pyLines s
    ∧ decompress_tar [⟨nm2, true, s⟩] = pyLines s
    ∧ (pyLines s).flatten = s := by
  refine ⟨rfl, decompress_bzip2_eq_pyLines chunks, ?_, ?_, pyLines_flatten s⟩
  · simp [decompress_zip, hnm]
  · simp [decompress_tar]

/-- Witness for C1 at a concrete plaintext `"Hi\nok"` (no trailing
terminator), an explicit chunking of it, and a concrete member name. -/
theorem C1_decode_round_trip_witness :
    decompress_gzip [72, 105, 10, 111, 107] = pyLines [72, 105, 10, 111, 107]
    ∧ decompress_bzip2 [[72, 105], [10, 111], [107]]
        = pyLines [[72, 105], [10, 111], [107]].flatten
    ∧ decompress_zip [⟨"a.log".data, [72, 105, 10, 111, 107]⟩]
        = pyLines [72, 105, 10, 111, 107]
    ∧ decompress_tar [⟨"a.log".data, true, [72, 105, 10, 111, 107]⟩]
        = pyLines [72, 105, 10, 111, 107]
    ∧ (pyLines [72, 105, 10, 111, 107]).flatten = [72, 105, 10, 111, 107] :=
  C1_decode_round_trip [72, 105, 10, 111, 107] [[72, 105], [10, 111], [107]]
    "a.log".data "a.log".data (by decide)

/-- ASCII lowercasing of a Python string (`str.lower`). -/
def lowerChars (s : List Char) : List Char := s.map Char.toLower

/-- Scan of the reversed filename used to model `os.path.splitext`
(posixpath): walking from the end of the name, accumulate the characters
after the last dot; on reaching that dot, the extension is kept only when
some non-dot character stands between the last path separator (or the
start) and the dot (splitext treats a leading-dot basename such as
`.bashrc` as having no extension); hitting a `/` first, or exhausting the
name, yields the empty extension. -/
def extScan (acc : List Char) : List Char → List Char
  | [] => []
  | c :: cs =>
    if c = '/' then []
    else if c = '.' then
      if (cs.takeWhile (fun d => d ≠ '/')).any (fun d => d ≠ '.') then
        '.' :: acc
      else []
    else extScan (c :: acc) cs

/-- `os.path.splitext(p)[1]` for a POSIX path: the extension starting at
the last dot of the basename, or empty. -/
def splitext_ext (p : List Char) : List Char := extScan [] p.reverse

/-- `get_file_extension` (file_decompressor.py, lines 121-141): compound
suffixes `.tar.gz` / `.tar.bz2` are checked first on the lowercased name;
otherwise the simple `os.path.splitext` extension of the original name is
returned lowercased. -/
def get_file_extension (f : List Char) : List Char :=
  if List.isSuffixOf ".tar.gz".data (lowerChars f) then ".tar.gz".data
  else if List.isSuffixOf ".tar.bz2".data (lowerChars f) then ".tar.bz2".data
  else lowerChars (splitext_ext f)

/-- The values of the `EXTENSION_TO_COMPRESSION` dictionary
(app_config.py, lines 48-55). -/
inductive CompressionType where
  | gzip
  | zip
  | bzip2
  | tar_gzip
  | tar_bzip2
deriving DecidableEq

/-- `EXTENSION_TO_COMPRESSION.get(ext)` (app_config.py, lines 48-55). -/
def EXTENSION_TO_COMPRESSION (ext : List Char) : Option CompressionType :=
  if ext = ".gz".data then some .gzip
  else if ext = ".zip".data then some .zip
  else if ext = ".bz2".data then some .bzip2
  else if ext = ".tar.gz".data then some .tar_gzip
  else if ext = ".tgz".data then some .tar_gzip
  else if ext = ".tar.bz2".data then some .tar_bzip2
  else none

/-- Which decompression routine `decompress_file` dispatches to. -/
inductive DecodeChoice where
  | gz
  | bz2
  | zip
  | tarGz
  | tarBz2
deriving DecidableEq

/-- The `ValueError`s raised by `decompress_file`: `unknownFormat` models
"Cannot determine compression type for octet-stream file with extension"
and `unsupportedMime` models "Unsupported compressed MIME type". -/
inductive DecompressError where
  | unknownFormat (ext : Option (List Char))
  | unsupportedMime (mime : List Char)
deriving DecidableEq

/-- Python truthiness of the optional `filename` argument (`if filename`):
false for `None` and for the empty string. -/
def truthy : Option (List Char) → Bool
  | some f => !f.isEmpty
  | none => false

/-- `decompress_file` (file_decompressor.py, lines 144-200): dispatch on
the extension-derived compression type first (tar archives), then on the
MIME type, with an extension-based fallback for
`application/octet-stream`; unmatched inputs raise `ValueError`. -/
def decompress_file (mime : List Char) (filename : Option (List Char)) :
    Except DecompressError DecodeChoice :=
  let ext : Option (List Char) :=
    match filename with
    | some f => if f.isEmpty then none else some (get_file_extension f)
    | none => none
  let ct : Option CompressionType := ext.bind EXTENSION_TO_COMPRESSION
  if ct = some .tar_gzip then .ok .tarGz
  else if ct = some .tar_bzip2 then .ok .tarBz2
  else if mime = "application/gzip".data ∨ mime = "application/x-gzip".data then
    .ok .gz
  else if mime = "application/zip".data
      ∨ mime = "application/x-zip-compressed".data then
    .ok .zip
  else if mime = "application/x-bzip2".data then .ok .bz2
  else if mime = "application/x-tar".data then .ok .tarGz
  else if mime = "application/octet-stream".data ∧ truthy filename = true then
    match ct with
    | some .gzip => .ok .gz
    | some .zip => .ok .zip
    | some .bzip2 => .ok .bz2
    | _ => .error (.unknownFormat ext)
  else .error (.unsupportedMime mime)

deriving instance DecidableEq for Except

theorem get_file_extension_tar_gz (f : List Char)
    (h : List.isSuffixOf ".tar.gz".data (lowerChars f) = true) :
    get_file_extension f = ".tar.gz".data := by
  simp [get_file_extension, h]

theorem get_file_extension_tar_bz2 (f : List Char)
    (h : List.isSuffixOf ".tar.bz2".data (lowerChars f) = true) :
    get_file_extension f = ".tar.bz2".data := by
  have hb : ".tar.bz2".data <:+ lowerChars f := List.isSuffixOf_iff_suffix.mp h
  have hg : List.isSuffixOf ".tar.gz".data (lowerChars f) = false := by
    rw [Bool.eq_false_iff]
    intro hg'
    have hg2 : ".tar.gz".data <:+ lowerChars f := List.isSuffixOf_iff_suffix.mp hg'
    rcases List.suffix_or_suffix_of_suffix hg2 hb with h1 | h1
    · exact absurd h1 (by decide)
    · exact absurd h1 (by decide)
  simp [get_file_extension, hg, h]

theorem suffix_ne_nil_of_isSuffixOf {pat f : List Char}
    (hpat : pat ≠ []) (h : List.isSuffixOf pat (lowerChars f) = true) :
    f.isEmpty = false := by
  have hs : pat <:+ lowerChars f := List.isSuffixOf_iff_suffix.mp h
  have hlen := hs.length_le
  rw [List.isEmpty_eq_false]
  intro h0
  rw [h0] at hlen
  simp only [lowerChars, List.map_nil, List.length_nil, Nat.le_zero,
    List.length_eq_zero] at hlen
  exact hpat hlen

/-- C4: for every filename ending (case-insensitively) in the compound
suffix `.tar.gz` or `.tar.bz2` and every declared content type,
`decompress_file` selects the matching tar decompressor; the
compound-suffix rule takes precedence over the content-type signal. -/
theorem C4_compound_suffix_precedence (mime f : List Char) :
    (List.isSuffixOf ".tar.gz".data (lowerChars f) = true →
      decompress_file mime (some f) = .ok .tarGz)
    ∧ (List.isSuffixOf ".tar.bz2".data (lowerChars f) = true →
      decompress_file mime (some f) = .ok .tarBz2) := by
  constructor
  · intro h
    have hfe : f.isEmpty = false := suffix_ne_nil_of_isSuffixOf (by decide) h
    have hext := get_file_extension_tar_gz f h
    have hct : EXTENSION_TO_COMPRESSION ".tar.gz".data = some .tar_gzip := by decide
    simp [decompress_file, hfe, hext, hct]
  · intro h
    have hfe : f.isEmpty = false := suffix_ne_nil_of_isSuffixOf (by decide) h
    have hext := get_file_extension_tar_bz2 f h
    have hct : EXTENSION_TO_COMPRESSION ".tar.bz2".data = some .tar_bzip2 := by decide
    simp [decompress_file, hfe, hext, hct]

/-- Witness for C4: `report.tar.gz` routes to tar+gzip under both
`application/octet-stream` and `application/gzip`, and `x.tar.bz2` routes
to tar+bzip2 under `application/octet-stream`. -/
theorem C4_compound_suffix_precedence_witness :
    decompress_file "application/octet-stream".data (some "report.tar.gz".data)
        = .ok .tarGz
    ∧ decompress_file "application/gzip".data (some "report.tar.gz".data)
        = .ok .tarGz
    ∧ decompress_file "application/octet-stream".data (some "x.tar.bz2".data)
        = .ok .tarBz2 :=
  ⟨(C4_compound_suffix_precedence "application/octet-stream".data
      "report.tar.gz".data).1 (by decide),
    (C4_compound_suffix_precedence "application/gzip".data
      "report.tar.gz".data).1 (by decide),
    (C4_compound_suffix_precedence "application/octet-stream".data
      "x.tar.bz2".data).2 (by decide)⟩

/-- C5: when the declared content type is the generic-binary fallback
`application/octet-stream`, the compression kind is re-derived from the
simple filename suffix computed by `get_file_extension` (`.gz` to gzip,
`.zip` to zip, `.bz2` to bzip2), and when no suffix matches the mapping
the call fails with the unknown-format error; in particular
`data.bin` fails with the unknown-format error. -/
theorem C5_octet_stream_fallback (f : List Char) (hfe : f.isEmpty = false) :
    (get_file_extension f = ".gz".data →
      decompress_file "application/octet-stream".data (some f) = .ok .gz)
    ∧ (get_file_extension f = ".zip".data →
      decompress_file "application/octet-stream".data (some f) = .ok .zip)
    ∧ (get_file_extension f = ".bz2".data →
      decompress_file "application/octet-stream".data (some f) = .ok .bz2)
    ∧ (EXTENSION_TO_COMPRESSION (get_file_extension f) = none →
      decompress_file "application/octet-stream".data (some f)
        = .error (.unknownFormat (some (get_file_extension f))))
    ∧ decompress_file "application/octet-stream".data (some "data.bin".data)
        = .error (.unknownFormat (some ".bin".data)) := by
  have hm1 : ¬("application/octet-stream".data = "application/gzip".data
      ∨ "application/octet-stream".data = "application/x-gzip".data) := by decide
  have hm2 : ¬("application/octet-stream".data = "application/zip".data
      ∨ "application/octet-stream".data = "application/x-zip-compressed".data) := by
    decide
  have hm3 : ¬("application/octet-stream".data = "application/x-bzip2".data) := by
    decide
  have hm4 : ¬("application/octet-stream".data = "application/x-tar".data) := by
    decide
  refine ⟨?_, ?_, ?_, ?_, by decide⟩
  · intro hext
    have hct : EXTENSION_TO_COMPRESSION ".gz".data = some .gzip := by decide
    simp [decompress_file, hfe, hext, hct, hm1, hm2, hm3, hm4, truthy]
  · intro hext
    have hct : EXTENSION_TO_COMPRESSION ".zip".data = some .zip := by decide
    simp [decompress_file, hfe, hext, hct, hm1, hm2, hm3, hm4, truthy]
  · intro hext
    have hct : EXTENSION_TO_COMPRESSION ".bz2".data = some .bzip2 := by decide
    simp [decompress_file, hfe, hext, hct, hm1, hm2, hm3, hm4, truthy]
  · intro hct
    simp [decompress_file, hfe, hct, hm1, hm2, hm3, hm4, truthy]

/-- Witness for C5 at concrete filenames `x.gz`, `x.zip`, `x.bz2` and
`data.bin` under `application/octet-stream`. -/
theorem C5_octet_stream_fallback_witness :
    decompress_file "application/octet-stream".data (some "x.gz".data) = .ok .gz
    ∧ decompress_file "application/octet-stream".data (some "x.zip".data)
        = .ok .zip
    ∧ decompress_file "application/octet-stream".data (some "x.bz2".data)
        = .ok .bz2
    ∧ decompress_file "application/octet-stream".data (some "data.bin".data)
        = .error (.unknownFormat (some ".bin".data)) :=
  ⟨(C5_octet_stream_fallback "x.gz".data (by decide)).1 (by decide),
    (C5_octet_stream_fallback "x.zip".data (by decide)).2.1 (by decide),
    (C5_octet_stream_fallback "x.bz2".data (by decide)).2.2.1 (by decide),
    (C5_octet_stream_fallback "data.bin".data (by decide)).2.2.2.2⟩

/-- C10 counterexample: the dot-file name `.tgz` ends in `.tgz`, yet
`decompress_file` does not route it to tar+gzip — `os.path.splitext`
yields no extension for a leading-dot basename, so the content-type signal
(`application/gzip`) wins and the gzip path is chosen. -/
theorem C10_tgz_counterexample :
    List.isSuffixOf ".tgz".data (lowerChars ".tgz".data) = true
    ∧ decompress_file "application/gzip".data (some ".tgz".data) = .ok .gz
    ∧ decompress_file "application/gzip".data (some ".tgz".data)
        ≠ .ok .tarGz := by
  decide

/-- C10 (amended): for every filename whose computed extension
(`get_file_extension`, i.e. `os.path.splitext` after the compound-suffix
check) is `.tgz`, `decompress_file` selects tar+gzip regardless of the
declared content type — this is every name ending in `.tgz` with a
non-dot character before the suffix in the basename; a bare `.tgz`
dot-file yields no extension and is not treated as tar. -/
theorem C10_tgz_extension_tar (mime f : List Char) (hfe : f.isEmpty = false)
    (hext : get_file_extension f = ".tgz".data) :
    decompress_file mime (some f) = .ok .tarGz := by
  have hct : EXTENSION_TO_COMPRESSION ".tgz".data = some .tar_gzip := by decide
  simp [decompress_file, hfe, hext, hct]

/-- Witness for the amended C10 at `a.tgz` under `application/gzip`. -/
theorem C10_tgz_extension_tar_witness :
    decompress_file "application/gzip".data (some "a.tgz".data) = .ok .tarGz :=
  C10_tgz_extension_tar "application/gzip".data "a.tgz".data (by decide)
    (by decide)

/-- One record of `InMemorySessionStore._store` (app_config.py, lines
266-271): the credential payload (a string-to-string mapping, modelled as
an association list) with creation and last-access timestamps. -/
structure SessionRec where
  data : List (String × String)
  created_at : Int
  last_accessed : Int
deriving DecidableEq

/-- The `_store` dictionary of `InMemorySessionStore`, modelled as a map
from session id to record (a Python dict has unique keys). -/
def Store : Type := String → Option SessionRec

/-- `InMemorySessionStore.get_session` (app_config.py, lines 275-301):
an empty id returns the empty payload; an absent id returns the empty
payload; an expired entry (`now - last_accessed > timeout`) is deleted and
the empty payload returned; otherwise `last_accessed` is refreshed to
`now` and a copy of the payload is returned (for a string-to-string
payload, `dict.copy()` is modelled as the payload value itself — the
store keeps its own record, so the caller cannot reach the store's
state through the returned value). -/
def get_session (now timeout : Int) (st : Store) (sid : String) :
    List (String × String) × Store :=
  if sid = "" then ([], st)
  else
    match st sid with
    | none => ([], st)
    | some s =>
      if now - s.last_accessed > timeout then
        ([], fun k => if k = sid then none else st k)
      else
        (s.data, fun k => if k = sid then some { s with last_accessed := now }
          else st k)

/-- `InMemorySessionStore.update_session` (app_config.py, lines 303-322):
an empty id returns false; an id present in `_store` (no expiry check is
performed) has its payload replaced and `last_accessed` refreshed, and the
call returns true; an absent id returns false. -/
def update_session (now : Int) (st : Store) (sid : String)
    (d : List (String × String)) : Bool × Store :=
  if sid = "" then (false, st)
  else
    match st sid with
    | none => (false, st)
    | some s =>
      (true, fun k => if k = sid then
          some { s with data := d, last_accessed := now }
        else st k)

/-- C2: for every session id, `get_session` returns the empty result and
leaves the store unchanged when the id is absent; evicts the entry and
returns the empty result when `now - last_accessed` exceeds the timeout;
and otherwise refreshes `last_accessed` to `now` and returns the stored
payload while the store keeps its own record (all other keys untouched in
every case). -/
theorem C2_get_session_contract (now timeout : Int) (st : Store) (sid : String)
    (hsid : sid ≠ "") :
    (st sid = none → get_session now timeout st sid = ([], st))
    ∧ (∀ s : SessionRec, st sid = some s → now - s.last_accessed > timeout →
        (get_session now timeout st sid).1 = []
        ∧ (get_session now timeout st sid).2 sid = none
        ∧ ∀ k, k ≠ sid → (get_session now timeout st sid).2 k = st k)
    ∧ (∀ s : SessionRec, st sid = some s → ¬(now - s.last_accessed > timeout) →
        (get_session now timeout st sid).1 = s.data
        ∧ (get_session now timeout st sid).2 sid
            = some { s with last_accessed := now }
        ∧ ∀ k, k ≠ sid → (get_session now timeout st sid).2 k = st k) := by
  refine ⟨?_, ?_, ?_⟩
  · intro h
    simp [get_session, hsid, h]
  · intro s hs hexp
    simp only [get_session, if_neg hsid, hs, if_pos hexp]
    exact ⟨by trivial, by simp, fun k hk => by simp [hk]⟩
  · intro s hs hexp
    simp only [get_session, if_neg hsid, hs, if_neg hexp]
    exact ⟨by trivial, by simp, fun k hk => by simp [hk]⟩

/-- Witness for C2: a store holding one session `"a"` with
`last_accessed = 0`; a live read at `now = 10` (timeout 100) returns the
payload and refreshes the timestamp. -/
theorem C2_get_session_contract_witness :
    (get_session 10 100
        (fun k => if k = "a" then some ⟨[("u", "p")], 0, 0⟩ else none) "a").1
      = [("u", "p")]
    ∧ (get_session 10 100
        (fun k => if k = "a" then some ⟨[("u", "p")], 0, 0⟩ else none) "a").2 "a"
      = some ⟨[("u", "p")], 0, 10⟩ := by
  have h := (C2_get_session_contract 10 100
      (fun k => if k = "a" then some ⟨[("u", "p")], 0, 0⟩ else none) "a"
      (by decide)).2.2 ⟨[("u", "p")], 0, 0⟩ (by simp) (by decide)
  exact ⟨h.1, h.2.1⟩

/-- C3 counterexample: `update_session` never checks expiry.  With
timeout 3600, a store holding session `"a"` with `last_accessed = 0` is
expired at `now = 5000` (`5000 - 0 > 3600`), yet `update_session` returns
true, replaces the payload and refreshes `last_accessed` — and an
immediately following `get_session` at `now = 5001` serves the new
payload: the expired entry was updated and resurrected, contradicting the
claim that a live entry is required and that an expired entry is never
updated or resurrected. -/
theorem C3_update_session_counterexample :
    ((5000 : Int) - 0 > 3600)
    ∧ (update_session 5000
        (fun k => if k = "a" then some ⟨[("u", "p")], 0, 0⟩ else none) "a"
        [("x", "y")]).1 = true
    ∧ (update_session 5000
        (fun k => if k = "a" then some ⟨[("u", "p")], 0, 0⟩ else none) "a"
        [("x", "y")]).2 "a" = some ⟨[("x", "y")], 0, 5000⟩
    ∧ (get_session 5001 3600
        ((update_session 5000
          (fun k => if k = "a" then some ⟨[("u", "p")], 0, 0⟩ else none) "a"
          [("x", "y")]).2) "a").1 = [("x", "y")] := by
  refine ⟨by decide, rfl, by simp [update_session], ?_⟩
  simp [update_session, get_session]

/-- C3 (amended): `update_session` replaces the payload and refreshes
`last_accessed` whenever the id is present in the store — expired or not
(no expiry check is performed) — and returns true exactly when the id is
present; an expired entry that has not yet been evicted is therefore
updated and resurrected rather than refused. -/
theorem C3_update_session_presence (now : Int) (st : Store) (sid : String)
    (d : List (String × String)) (hsid : sid ≠ "") :
    ((update_session now st sid d).1 = true ↔ (st sid).isSome = true)
    ∧ (st sid = none → update_session now st sid d = (false, st))
    ∧ (∀ s : SessionRec, st sid = some s →
        (update_session now st sid d).2 sid
            = some { s with data := d, last_accessed := now }
        ∧ ∀ k, k ≠ sid → (update_session now st sid d).2 k = st k) := by
  refine ⟨?_, ?_, ?_⟩
  · cases hs : st sid with
    | none => simp [update_session, hsid, hs]
    | some s => simp [update_session, hsid, hs]
  · intro hs
    simp [update_session, hsid, hs]
  · intro s hs
    simp only [update_session, if_neg hsid, hs]
    exact ⟨by simp, fun k hk => by simp [hk]⟩

/-- Witness for the amended C3 at a concrete store holding `"a"`. -/
theorem C3_update_session_presence_witness :
    ((update_session 7
        (fun k => if k = "a" then some ⟨[("u", "p")], 0, 0⟩ else none) "a"
        [("x", "y")]).1 = true
      ↔ (((fun k => if k = "a" then some ⟨[("u", "p")], 0, 0⟩ else none) : Store)
          "a").isSome = true)
    ∧ (update_session 7
        (fun k => if k = "a" then some ⟨[("u", "p")], 0, 0⟩ else none) "a"
        [("x", "y")]).2 "a" = some ⟨[("x", "y")], 0, 7⟩ := by
  have h := C3_update_session_presence 7
      (fun k => if k = "a" then some ⟨[("u", "p")], 0, 0⟩ else none) "a"
      [("x", "y")] (by decide)
  exact ⟨h.1, (h.2.2 ⟨[("u", "p")], 0, 0⟩ (by simp)).1⟩

/-- The state of the `@lru_cache(maxsize=1)` memoisation of
`get_mongo_client` (app_config.py, line 135): at most one cached
(connection-string, client-handle) pair, plus a counter supplying the
identity of the next client the `MongoClient` constructor would build
(distinct attempts yield distinct handles). -/
structure ConnCache where
  entry : Option (String × Nat)
  attempts : Nat
deriving DecidableEq

/-- The errors `get_mongo_client` can raise (app_config.py, lines
176-184): `InvalidURI` from connection-string validation,
`PyMongoError` from construction or the `ping` liveness probe. -/
inductive ConnErr where
  | invalidURI
  | pyMongoError
deriving DecidableEq

/-- The body of `get_mongo_client` on a cache miss (app_config.py, lines
152-184): validate the connection string, construct the pooled client and
issue the `ping` liveness command — all modelled by the environment
`env`, which says whether the attempt numbered `st.attempts` for this
connection string validates, connects and answers the probe.  On success
the handle is cached (`lru_cache` stores the result); on failure the
exception propagates and `lru_cache` caches nothing, leaving the previous
entry in place. -/
def attemptConnect (env : String → Nat → Except ConnErr Unit) (cs : String)
    (st : ConnCache) : Except ConnErr Nat × ConnCache :=
  match env cs st.attempts with
  | .ok _ => (.ok st.attempts, ⟨some (cs, st.attempts), st.attempts + 1⟩)
  | .error e => (.error e, ⟨st.entry, st.attempts + 1⟩)

/-- `get_mongo_client` under `@lru_cache(maxsize=1)` (app_config.py,
lines 135-184): a call whose connection string matches the cached entry
returns the cached handle without touching the environment; any other
call runs the body. -/
def get_mongo_client (env : String → Nat → Except ConnErr Unit) (cs : String)
    (st : ConnCache) : Except ConnErr Nat × ConnCache :=
  match st.entry with
  | some (k, h) => if k = cs then (.ok h, st) else attemptConnect env cs st
  | none => attemptConnect env cs st

/-- `clear_connection_cache` (app_config.py, lines 225-231):
`get_mongo_client.cache_clear()` unconditionally drops the cached entry. -/
def clear_connection_cache (st : ConnCache) : ConnCache :=
  ⟨none, st.attempts⟩

/-- C6: starting from an empty cache, two `get_mongo_client` calls with
the same valid connection string return the same handle and the second
call does not establish a new connection (the cache state is unchanged);
after `clear_connection_cache` the next call re-establishes a fresh
handle, distinct from the first. -/
theorem C6_connection_cache_memoises (env : String → Nat → Except ConnErr Unit)
    (cs : String) (n : Nat) (h1 : env cs n = .ok ()) (h2 : env cs (n + 1) = .ok ()) :
    (get_mongo_client env cs ⟨none, n⟩).1 = .ok n
    ∧ (get_mongo_client env cs ⟨none, n⟩).2 = ⟨some (cs, n), n + 1⟩
    ∧ get_mongo_client env cs (get_mongo_client env cs ⟨none, n⟩).2
        = (.ok n, (get_mongo_client env cs ⟨none, n⟩).2)
    ∧ (get_mongo_client env cs
        (clear_connection_cache
          (get_mongo_client env cs (get_mongo_client env cs ⟨none, n⟩).2).2)).1
        = .ok (n + 1)
    ∧ (Except.ok (n + 1) : Except ConnErr Nat) ≠ .ok n := by
  have hst1 : get_mongo_client env cs ⟨none, n⟩
      = (.ok n, ⟨some (cs, n), n + 1⟩) := by
    simp [get_mongo_client, attemptConnect, h1]
  refine ⟨by rw [hst1], by rw [hst1], ?_, ?_, by simp⟩
  · rw [hst1]
    simp [get_mongo_client]
  · rw [hst1]
    simp only [get_mongo_client, clear_connection_cache]
    simp [attemptConnect, h2]

/-- Witness for C6 with an always-successful environment. -/
theorem C6_connection_cache_memoises_witness :
    (get_mongo_client (fun _ _ => .ok ()) "mongodb://h" ⟨none, 0⟩).1 = .ok 0
    ∧ (get_mongo_client (fun _ _ => .ok ()) "mongodb://h" ⟨none, 0⟩).2
        = ⟨some ("mongodb://h", 0), 1⟩
    ∧ get_mongo_client (fun _ _ => .ok ()) "mongodb://h"
        (get_mongo_client (fun _ _ => .ok ()) "mongodb://h" ⟨none, 0⟩).2
        = (.ok 0, (get_mongo_client (fun _ _ => .ok ()) "mongodb://h"
            ⟨none, 0⟩).2)
    ∧ (get_mongo_client (fun _ _ => .ok ()) "mongodb://h"
        (clear_connection_cache
          (get_mongo_client (fun _ _ => .ok ()) "mongodb://h"
            (get_mongo_client (fun _ _ => .ok ()) "mongodb://h"
              ⟨none, 0⟩).2).2)).1 = .ok 1
    ∧ (Except.ok 1 : Except ConnErr Nat) ≠ .ok 0 :=
  C6_connection_cache_memoises (fun _ _ => .ok ()) "mongodb://h" 0 rfl rfl

theorem attemptConnect_error (env : String → Nat → Except ConnErr Unit)
    (cs : String) (st : ConnCache) (e : ConnErr)
    (he : (attemptConnect env cs st).1 = .error e) :
    (attemptConnect env cs st).2.entry = st.entry
    ∧ env cs st.attempts = .error e := by
  rcases henv : env cs st.attempts with e' | u
  · simp only [attemptConnect, henv, Except.error.injEq] at he
    subst he
    constructor
    · simp [attemptConnect, henv]
    · rfl
  · simp [attemptConnect, henv] at he

theorem attemptConnect_ok (env : String → Nat → Except ConnErr Unit)
    (cs : String) (st : ConnCache) (h : Nat)
    (hh : (attemptConnect env cs st).1 = .ok h) :
    (attemptConnect env cs st).2.entry = some (cs, h)
    ∧ env cs st.attempts = .ok () := by
  rcases henv : env cs st.attempts with e' | u
  · simp [attemptConnect, henv] at hh
  · simp only [attemptConnect, henv, Except.ok.injEq] at hh
    subst hh
    cases u
    constructor
    · simp [attemptConnect, henv]
    · rfl

/-- C7: whenever `get_mongo_client` fails, the attempted entry is not
cached (the cached entry is exactly what it was before the call) and the
error raised by the construction/probe attempt is surfaced to the caller;
any successfully returned handle is cached and is either the previously
cached handle for this string or one that has just answered the liveness
probe. -/
theorem C7_connection_failure_not_cached
    (env : String → Nat → Except ConnErr Unit) (cs : String) (st : ConnCache) :
    (∀ e : ConnErr, (get_mongo_client env cs st).1 = .error e →
      (get_mongo_client env cs st).2.entry = st.entry
      ∧ env cs st.attempts = .error e)
    ∧ (∀ h : Nat, (get_mongo_client env cs st).1 = .ok h →
      (get_mongo_client env cs st).2.entry = some (cs, h)
      ∧ (st.entry = some (cs, h) ∨ env cs st.attempts = .ok ())) := by
  rcases hst : st.entry with _ | ⟨k, hd⟩
  · have hrun : get_mongo_client env cs st = attemptConnect env cs st := by
      simp [get_mongo_client, hst]
    constructor
    · intro e he
      rw [hrun] at he ⊢
      have hc := attemptConnect_error env cs st e he
      exact ⟨hc.1.trans hst, hc.2⟩
    · intro h hh
      rw [hrun] at hh ⊢
      have hc := attemptConnect_ok env cs st h hh
      exact ⟨hc.1, Or.inr hc.2⟩
  · by_cases hk : k = cs
    · have hcall : get_mongo_client env cs st = (.ok hd, st) := by
        simp [get_mongo_client, hst, hk]
      constructor
      · intro e he
        rw [hcall] at he
        simp at he
      · intro h hh
        rw [hcall] at hh ⊢
        rw [Except.ok.injEq] at hh
        exact ⟨by simp [hst, hk, hh], Or.inl (by rw [hk, hh])⟩
    · have hrun : get_mongo_client env cs st = attemptConnect env cs st := by
        simp [get_mongo_client, hst, hk]
      constructor
      · intro e he
        rw [hrun] at he ⊢
        have hc := attemptConnect_error env cs st e he
        exact ⟨hc.1.trans hst, hc.2⟩
      · intro h hh
        rw [hrun] at hh ⊢
        have hc := attemptConnect_ok env cs st h hh
        exact ⟨hc.1, Or.inr hc.2⟩

/-- Witness for C7: a failing environment leaves a previously cached
entry for another connection string untouched and surfaces the error. -/
theorem C7_connection_failure_not_cached_witness :
    (get_mongo_client (fun _ _ => .error .pyMongoError) "mongodb://b"
        ⟨some ("mongodb://a", 5), 6⟩).2.entry = some ("mongodb://a", 5)
    ∧ (fun (_ : String) (_ : Nat) =>
        (.error .pyMongoError : Except ConnErr Unit)) "mongodb://b" 6
      = .error .pyMongoError :=
  (C7_connection_failure_not_cached (fun _ _ => .error .pyMongoError)
    "mongodb://b" ⟨some ("mongodb://a", 5), 6⟩).1 .pyMongoError rfl

/-- C8: `decompress_zip` on an empty archive yields the empty sequence
without error; a directory entry (name ending in `/`) is skipped; an
archive of two file entries yields file A's lines followed by file B's
lines with no separator inserted — flattening the output of the two-file
archive recovers exactly the two contents concatenated. -/
theorem C8_zip_entry_concatenation (a b e : ZipEntry) (es : List ZipEntry)
    (ha : List.isSuffixOf "/".data a.name = false)
    (hb : List.isSuffixOf "/".data b.name = false)
    (he : List.isSuffixOf "/".data e.name = true) :
    decompress_zip [] = []
    ∧ decompress_zip [a, b] = pyLines a.content ++ pyLines b.content
    ∧ decompress_zip (e :: es) = decompress_zip es
    ∧ (decompress_zip [a, b]).flatten = a.content ++ b.content := by
  have h2 : decompress_zip [a, b] = pyLines a.content ++ pyLines b.content := by
    simp [decompress_zip, ha, hb]
  refine ⟨rfl, h2, ?_, ?_⟩
  · simp [decompress_zip, he]
  · rw [h2, List.flatten_append, pyLines_flatten, pyLines_flatten]

/-- Witness for C8 with two concrete file entries and a directory entry. -/
theorem C8_zip_entry_concatenation_witness :
    decompress_zip [] = []
    ∧ decompress_zip [⟨"a.log".data, [65, 10]⟩, ⟨"b.log".data, [66]⟩]
        = pyLines [65, 10] ++ pyLines [66]
    ∧ decompress_zip [⟨"logs/".data, [1, 2]⟩]
        = decompress_zip ([] : List ZipEntry)
    ∧ (decompress_zip [⟨"a.log".data, [65, 10]⟩, ⟨"b.log".data, [66]⟩]).flatten
        = [65, 10] ++ [66] :=
  C8_zip_entry_concatenation ⟨"a.log".data, [65, 10]⟩ ⟨"b.log".data, [66]⟩
    ⟨"logs/".data, [1, 2]⟩ [] (by decide) (by decide) (by decide)
